import Mathlib

/-!
# DevOpsCLI-Tool: a verification development over `main.go`

The Go program is a command-line front end: it renders one of three GitHub
Actions workflows from a `text/template` template and shells out to
`terraform`, `bash` and `git`.  This file embeds

* the data model (`Config`, `PipelineTemplate`),
* the template of `generatePipelineFile`, as the node list `text/template`
  parses it into, together with an executor for the node kinds it uses,
* the command handlers, as functions from their inputs (arguments, the line
  read from standard input, the outcome of each external process) to the
  list of effects they perform, in order.
-/

namespace DevOpsCLI

/-! ## Data model -/

/-- Go `type Config struct`: the CLI configuration. -/
structure Config where
  TerraformPath : String
  WorkspaceDir : String
  GitRemote : String
  GitBranch : String
deriving DecidableEq, Repr

/-- Go `type PipelineTemplate struct`: a CI/CD pipeline definition. -/
structure PipelineTemplate where
  Name : String
  Language : String
  BuildSteps : List String
  TestSteps : List String
  DeploySteps : List String
deriving DecidableEq, Repr

/-- Go `getPipelineTemplates`: the catalog, in the order of the map literal.
A Go map has no order of its own; `rangeOrder` below supplies one wherever
the program ranges over the map. -/
def getPipelineTemplates : List (String × PipelineTemplate) :=
  [ ("node",
      { Name := "Node.js"
        Language := "javascript"
        BuildSteps := ["npm ci", "npm run build"]
        TestSteps := ["npm test", "npm run lint"]
        DeploySteps := ["npm run deploy"] }),
    ("go",
      { Name := "Go"
        Language := "go"
        BuildSteps := ["go mod download", "go build -v ./..."]
        TestSteps := ["go test -v ./...", "go vet ./..."]
        DeploySteps := ["go build -o app"] }),
    ("python",
      { Name := "Python"
        Language := "python"
        BuildSteps := ["pip install -r requirements.txt"]
        TestSteps := ["pytest", "flake8 ."]
        DeploySteps := ["python setup.py sdist bdist_wheel"] }) ]

/-- Go `templates[templateName]` with the comma-ok form: the entry of that
key, or `none` when the key is absent. -/
def lookupTemplate (templateName : String) : Option PipelineTemplate :=
  getPipelineTemplates.lookup templateName

/-! ## The template and its execution -/

/-- A value a template field evaluates to: the struct has string fields and
string-slice fields. -/
inductive Value where
  | str (s : String)
  | strs (l : List String)
deriving DecidableEq, Repr

/-- Field selection `.F` on a `PipelineTemplate`, by field name; `none` for a
name the struct does not have (for which `text/template` stops with an
error). -/
def PipelineTemplate.field (t : PipelineTemplate) (name : String) : Option Value :=
  if name = "Name" then some (.str t.Name)
  else if name = "Language" then some (.str t.Language)
  else if name = "BuildSteps" then some (.strs t.BuildSteps)
  else if name = "TestSteps" then some (.strs t.TestSteps)
  else if name = "DeploySteps" then some (.strs t.DeploySteps)
  else none

/-- What stands inside a `range` body of the template: literal text, or the
action that prints the current element. -/
inductive Item where
  | text (s : String)
  | dot
deriving DecidableEq, Repr

/-- The node kinds the template uses: literal text, a field action, an
`if eq .F "lit"` with a literal body and no else branch, and a `range .F`
over a body of items. -/
inductive Node where
  | text (s : String)
  | field (name : String)
  | ifEq (name : String) (lit : String) (body : String)
  | range (name : String) (body : List Item)
deriving DecidableEq, Repr

/-- Body of the javascript conditional of the template. -/
def setupNodeBlock : String :=
  "uses: actions/setup-node@v3\n      with:\n        node-version: '18'"

/-- Body of the go conditional of the template. -/
def setupGoBlock : String :=
  "uses: actions/setup-go@v3\n      with:\n        go-version: '1.19'"

/-- Body of the python conditional of the template. -/
def setupPythonBlock : String :=
  "uses: actions/setup-python@v3\n      with:\n        python-version: '3.9'"

/-- Body of each of the three `range` actions: the element, a line break and
the eight blanks that precede the closing `end`. -/
def stepBody : List Item := [.dot, .text "\n        "]

/-- The parse of `githubActionsTemplate`, node by node.  Nothing of the
source text is trimmed: the template uses no trim markers. -/
def githubActionsTemplate : List Node :=
  [ .text "name: ",
    .field "Name",
    .text (" CI/CD\n\non:\n  push:\n    branches: [ main, develop ]\n" ++
      "  pull_request:\n    branches: [ main ]\n\njobs:\n  build-and-test:\n" ++
      "    runs-on: ubuntu-latest\n    \n    steps:\n    - uses: actions/checkout@v3\n" ++
      "    \n    - name: Setup "),
    .field "Language",
    .text "\n      ",
    .ifEq "Language" "javascript" setupNodeBlock,
    .ifEq "Language" "go" setupGoBlock,
    .ifEq "Language" "python" setupPythonBlock,
    .text "\n    \n    - name: Build\n      run: |\n        ",
    .range "BuildSteps" stepBody,
    .text "\n    \n    - name: Test\n      run: |\n        ",
    .range "TestSteps" stepBody,
    .text ("\n    \n    - name: Deploy\n      if: github.ref == 'refs/heads/main'\n" ++
      "      run: |\n        "),
    .range "DeploySteps" stepBody,
    .text "\n" ]

/-- Output of one item of a `range` body for the element `elem`. -/
def execItem (elem : String) : Item → String
  | .text s => s
  | .dot => elem

/-- Output of a `range` body for the element `elem`: its items in order. -/
def execBody (elem : String) : List Item → String
  | [] => ""
  | item :: rest => execItem elem item ++ execBody elem rest

/-- Output of a `range` over `elems`: the body once per element, in order;
nothing for an empty slice (the template has no else branch). -/
def execRange (body : List Item) : List String → String
  | [] => ""
  | elem :: rest => execBody elem body ++ execRange body rest

/-- Execution of one node against the definition `t`.  The errors are those
`text/template` raises: a field the struct lacks, `eq` between a slice and a
string, `range` over a string. -/
def execNode (t : PipelineTemplate) : Node → Except String String
  | .text s => .ok s
  | .field name =>
    match t.field name with
    | some (.str s) => .ok s
    | some (.strs l) => .ok ("[" ++ " ".intercalate l ++ "]")
    | none => .error ("can't evaluate field " ++ name)
  | .ifEq name lit body =>
    match t.field name with
    | some (.str s) => .ok (if s = lit then body else "")
    | some (.strs _) => .error "error calling eq: incompatible types for comparison"
    | none => .error ("can't evaluate field " ++ name)
  | .range name body =>
    match t.field name with
    | some (.strs l) => .ok (execRange body l)
    | some (.str _) => .error "range can't iterate over string"
    | none => .error ("can't evaluate field " ++ name)

/-- Go `tmpl.Execute`: the nodes in order, stopping at the first error. -/
def execute (t : PipelineTemplate) : List Node → Except String String
  | [] => .ok ""
  | n :: rest =>
    match execNode t n with
    | .error e => .error e
    | .ok s =>
      match execute t rest with
      | .error e => .error e
      | .ok r => .ok (s ++ r)

/-- The text `generatePipelineFile` writes for the definition `t`: the
execution of `githubActionsTemplate`, or the error of the execution. -/
def renderPipeline (t : PipelineTemplate) : Except String String :=
  execute t githubActionsTemplate

/-- The text of `githubActionsTemplate` in the source, line by line. -/
def templateSource : String :=
  "name: \x7b\x7b.Name\x7d\x7d CI/CD\n" ++
  "\n" ++
  "on:\n" ++
  "  push:\n" ++
  "    branches: [ main, develop ]\n" ++
  "  pull_request:\n" ++
  "    branches: [ main ]\n" ++
  "\n" ++
  "jobs:\n" ++
  "  build-and-test:\n" ++
  "    runs-on: ubuntu-latest\n" ++
  "    \n" ++
  "    steps:\n" ++
  "    - uses: actions/checkout@v3\n" ++
  "    \n" ++
  "    - name: Setup \x7b\x7b.Language\x7d\x7d\n" ++
  "      \x7b\x7bif eq .Language \"javascript\"\x7d\x7duses: actions/setup-node@v3\n" ++
  "      with:\n" ++
  "        node-version: '18'\x7b\x7bend\x7d\x7d\x7b\x7bif eq .Language \"go\"\x7d\x7duses: actions/setup-go@v3\n" ++
  "      with:\n" ++
  "        go-version: '1.19'\x7b\x7bend\x7d\x7d\x7b\x7bif eq .Language \"python\"\x7d\x7duses: actions/setup-python@v3\n" ++
  "      with:\n" ++
  "        python-version: '3.9'\x7b\x7bend\x7d\x7d\n" ++
  "    \n" ++
  "    - name: Build\n" ++
  "      run: |\n" ++
  "        \x7b\x7brange .BuildSteps\x7d\x7d\x7b\x7b.\x7d\x7d\n" ++
  "        \x7b\x7bend\x7d\x7d\n" ++
  "    \n" ++
  "    - name: Test\n" ++
  "      run: |\n" ++
  "        \x7b\x7brange .TestSteps\x7d\x7d\x7b\x7b.\x7d\x7d\n" ++
  "        \x7b\x7bend\x7d\x7d\n" ++
  "    \n" ++
  "    - name: Deploy\n" ++
  "      if: github.ref == 'refs/heads/main'\n" ++
  "      run: |\n" ++
  "        \x7b\x7brange .DeploySteps\x7d\x7d\x7b\x7b.\x7d\x7d\n" ++
  "        \x7b\x7bend\x7d\x7d\n"

/-- An item of a `range` body written back as template text. -/
def unparseItem : Item → String
  | .text s => s
  | .dot => "\x7b\x7b.\x7d\x7d"

/-- The items of a `range` body written back as template text. -/
def unparseBody : List Item → String
  | [] => ""
  | item :: rest => unparseItem item ++ unparseBody rest

/-- A node written back as template text. -/
def unparseNode : Node → String
  | .text s => s
  | .field name => "\x7b\x7b." ++ name ++ "\x7d\x7d"
  | .ifEq name lit body =>
    "\x7b\x7bif eq ." ++ name ++ " \"" ++ lit ++ "\"\x7d\x7d" ++ body ++ "\x7b\x7bend\x7d\x7d"
  | .range name body =>
    "\x7b\x7brange ." ++ name ++ "\x7d\x7d" ++ unparseBody body ++ "\x7b\x7bend\x7d\x7d"

/-- A node list written back as template text. -/
def unparse : List Node → String
  | [] => ""
  | n :: rest => unparseNode n ++ unparse rest

/-- The text of the head of the workflow for the definition `t`, up to and
including the indentation that precedes the body of the Setup step. -/
def workflowHead (t : PipelineTemplate) : String :=
  "name: " ++ t.Name ++
  (" CI/CD\n\non:\n  push:\n    branches: [ main, develop ]\n" ++
    "  pull_request:\n    branches: [ main ]\n\njobs:\n  build-and-test:\n" ++
    "    runs-on: ubuntu-latest\n    \n    steps:\n    - uses: actions/checkout@v3\n" ++
    "    \n    - name: Setup ") ++
  t.Language ++ "\n      "

/-- The body of the Setup step for a language tag: what the three
conditionals of the template print, one after the other. -/
def setupBody (language : String) : String :=
  (if language = "javascript" then setupNodeBlock else "") ++
  ((if language = "go" then setupGoBlock else "") ++
   (if language = "python" then setupPythonBlock else ""))

/-- The text of the workflow before the Setup step: the name, the triggers
and the job up to and including the checkout step and the blank line after
it. -/
def workflowPreamble (t : PipelineTemplate) : String :=
  "name: " ++ t.Name ++
  (" CI/CD\n\non:\n  push:\n    branches: [ main, develop ]\n" ++
    "  pull_request:\n    branches: [ main ]\n\njobs:\n  build-and-test:\n" ++
    "    runs-on: ubuntu-latest\n    \n    steps:\n    - uses: actions/checkout@v3\n" ++
    "    \n")

/-- The Setup step of the workflow: its name line with the language tag, the
indentation of the next line and the body the three conditionals print.  The
text that follows it in the workflow starts with the line break that ends
this last line. -/
def setupStep (t : PipelineTemplate) : String :=
  "    - name: Setup " ++ t.Language ++ "\n      " ++ setupBody t.Language

/-- The indentation of a line of a run block: eight blanks. -/
def stepIndent : String := "        "

/-- A step as a line of a run block: the step behind the indentation. -/
def indentStep (s : String) : String := stepIndent ++ s

/-- The run block of a step list as the template prints it: the text between
the line break after `run: |` and the line break before the next blank
separator line. -/
def runBlock (steps : List String) : String :=
  stepIndent ++ execRange stepBody steps

/-- The lines of a text: its pieces between line breaks. -/
def textLines (s : String) : List String :=
  (s.data.splitOn (Char.ofNat 10)).map String.mk

/-- The text of the workflow from the end of the Setup step on: the Build,
Test and Deploy steps with their run blocks. -/
def workflowSteps (t : PipelineTemplate) : String :=
  "\n    \n    - name: Build\n      run: |\n" ++ runBlock t.BuildSteps ++
  ("\n    \n    - name: Test\n      run: |\n" ++ runBlock t.TestSteps ++
  ("\n    \n    - name: Deploy\n      if: github.ref == 'refs/heads/main'\n      run: |\n" ++
    runBlock t.DeploySteps ++ "\n"))

/-- Number of positions of `hay` at which `needle` starts. -/
def countOccurrences (needle : List Char) : List Char → Nat
  | [] => if needle.isEmpty then 1 else 0
  | c :: cs => (if needle.isPrefixOf (c :: cs) then 1 else 0) + countOccurrences needle cs

/-- Number of occurrences of the text `needle` in the text `hay`. -/
def occurrences (needle hay : String) : Nat :=
  countOccurrences needle.data hay.data

/-- The Setup block of a language tag of the catalog. -/
def setupBlockOf (language : String) : String :=
  if language = "javascript" then setupNodeBlock
  else if language = "go" then setupGoBlock
  else setupPythonBlock

/-! ## Effects -/

/-- An external process as `exec.Command` prepares it: the executable, its
arguments and `cmd.Dir` (the empty string stands for the directory of the
calling process, as in Go). -/
structure Invocation where
  exe : String
  args : List String
  dir : String
deriving DecidableEq, Repr

/-- What a command handler asks of the outside world, in order. -/
inductive Event where
  /-- Text written to standard output (`fmt.Print`, `Printf`, `Println`). -/
  | print (s : String)
  /-- A process launched with `cmd.Run()` and waited for. -/
  | exec (i : Invocation)
  /-- A call of `os.MkdirAll`. -/
  | mkdirAll (path : String)
  /-- A call of `os.Create`. -/
  | create (path : String)
  /-- Text written to the file created at `path`. -/
  | write (path : String) (content : String)
  /-- A call of `log.Fatalf`: the message, then the process exits. -/
  | fatal (msg : String)
deriving DecidableEq, Repr

/-- The outcome of the processes a handler launches: `result k` is the error
of the `k`-th launch (counted from 0), `none` when it exits with status 0. -/
abbrev Results := Nat → Option String

/-- The processes a trace launches, in order. -/
def execs : List Event → List Invocation
  | [] => []
  | .exec i :: rest => i :: execs rest
  | _ :: rest => execs rest

/-- Whether an event is a call of `log.Fatalf`. -/
def Event.isFatal : Event → Bool
  | .fatal _ => true
  | _ => false

/-- Whether an event touches the file system. -/
def Event.isFileEffect : Event → Bool
  | .mkdirAll _ => true
  | .create _ => true
  | .write _ _ => true
  | _ => false

/-! ## Helper functions of the program -/

/-- Go `getCurrentDir`: the first argument when there is one, else the
working directory `pwd` that `os.Getwd` reports. -/
def getCurrentDir (args : List String) (pwd : String) : String :=
  match args with
  | a :: _ => a
  | [] => pwd

/-- Go `unicode.IsSpace`: the white space `strings.TrimSpace` removes. -/
def isSpace (c : Char) : Bool :=
  let n := c.toNat
  n = 9 || n = 10 || n = 11 || n = 12 || n = 13 || n = 32 || n = 0x85 || n = 0xA0 ||
  n = 0x1680 || (0x2000 ≤ n && n ≤ 0x200A) || n = 0x2028 || n = 0x2029 ||
  n = 0x202F || n = 0x205F || n = 0x3000

/-- Go `strings.TrimSpace`: the text without its leading and trailing white
space. -/
def trimSpace (s : String) : String :=
  ⟨((s.data.dropWhile isSpace).reverse.dropWhile isSpace).reverse⟩

/-- Go `unicode.ToLower` on one rune, as far as ASCII is concerned: the
letters A to Z go to a to z, and so do the two runes outside ASCII whose
lowercase form is an ASCII letter (U+212A to k, U+0130 to i).  Every other
rune outside ASCII has a lowercase form outside ASCII and is kept as it is,
which no comparison with ASCII text can tell apart. -/
def toLowerRune (c : Char) : Char :=
  if 65 ≤ c.toNat ∧ c.toNat ≤ 90 then Char.ofNat (c.toNat + 32)
  else if c.toNat = 0x212A then Char.ofNat 107
  else if c.toNat = 0x130 then Char.ofNat 105
  else c

/-- Go `strings.ToLower`. -/
def toLower (s : String) : String := ⟨s.data.map toLowerRune⟩

/-- Go `confirmAction`, as a function of the line `scanner.Text()` returns
(the input line without its line break; the empty text at end of input). -/
def confirmAction (line : String) : Bool :=
  let response := toLower (trimSpace line)
  response = "yes" || response = "y"

/-- The answers that are `yes` or `y` up to the case of their letters. -/
def yesAnswers : List String :=
  ["yes", "yeS", "yEs", "yES", "Yes", "YeS", "YEs", "YES", "y", "Y"]

/-- Go `main`, the configuration it builds before any command runs: the
hardcoded terraform path, and for the workspace directory and the git branch
the line read at the startup prompt, trimmed, or the default when the trimmed
line is empty.  The git remote is left at the zero value. -/
def initialConfig (workspaceLine branchLine : String) : Config :=
  { TerraformPath := "terraform"
    WorkspaceDir :=
      (let workspaceDir := trimSpace workspaceLine
       if workspaceDir = "" then "./workspace" else workspaceDir)
    GitRemote := ""
    GitBranch :=
      (let gitBranch := trimSpace branchLine
       if gitBranch = "" then "main" else gitBranch) }

/-! ## Terraform commands -/

/-- Go `runTerraformCommand`: announce and run the configured executable in
`dir`; a failed run is fatal.  `result` is the outcome of the run. -/
def runTerraformCommand (config : Config) (dir : String) (args : List String)
    (result : Results) : List Event :=
  [ .print ("Running: terraform " ++ " ".intercalate args ++ " in " ++ dir ++ "\n"),
    .exec ⟨config.TerraformPath, args, dir⟩ ] ++
  match result 0 with
  | some err => [.fatal ("Terraform command failed: " ++ err)]
  | none => []

/-- Go `runTerraformInit`. -/
def runTerraformInit (config : Config) (args : List String) (pwd : String)
    (result : Results) : List Event :=
  runTerraformCommand config (getCurrentDir args pwd) ["init"] result

/-- Go `runTerraformPlan`. -/
def runTerraformPlan (config : Config) (args : List String) (pwd : String)
    (result : Results) : List Event :=
  runTerraformCommand config (getCurrentDir args pwd) ["plan"] result

/-- Go `runTerraformApply`; `line` is the answer read by `confirmAction`. -/
def runTerraformApply (config : Config) (args : List String) (pwd : String)
    (line : String) (result : Results) : List Event :=
  let dir := getCurrentDir args pwd
  .print "Are you sure you want to apply these changes? (yes/no): " ::
    (if !confirmAction line then [.print "Apply cancelled.\n"]
     else runTerraformCommand config dir ["apply", "-auto-approve"] result)

/-- Go `runTerraformDestroy`; `line` is the answer read by `confirmAction`. -/
def runTerraformDestroy (config : Config) (args : List String) (pwd : String)
    (line : String) (result : Results) : List Event :=
  let dir := getCurrentDir args pwd
  .print "Are you sure you want to destroy these resources? (yes/no): " ::
    (if !confirmAction line then [.print "Destroy cancelled.\n"]
     else runTerraformCommand config dir ["destroy", "-auto-approve"] result)

/-! ## Script commands -/

/-- Go `runBashScript`: `scriptExists` is the answer of `fileExists`.  The
handler reads no field of the configuration. -/
def runBashScript (_config : Config) (scriptPath : String) (scriptExists : Bool)
    (result : Results) : List Event :=
  if !scriptExists then [.fatal ("Script not found: " ++ scriptPath)]
  else
    [ .print ("Running script: " ++ scriptPath ++ "\n"),
      .exec ⟨"bash", [scriptPath], ""⟩ ] ++
    match result 0 with
    | some err => [.fatal ("Script execution failed: " ++ err)]
    | none => []

/-! ## Pipeline commands -/

/-- The order in which one `range` over the catalog map visits its entries.
Go leaves the order open, so it is a parameter: any permutation `order` of
the three positions of the map literal. -/
def rangeOrder (order : Equiv.Perm (Fin 3)) : List (String × PipelineTemplate) :=
  (List.finRange 3).filterMap fun i => getPipelineTemplates.get? (order i).val

/-- Go `generatePipelineFile`: create the file and execute the template into
it; the result is the effects and the error returned (`none` for `nil`).
`createErr` is the error of `os.Create`, `writeErr` that of writing the
output.  Parsing the fixed template text does not fail.  Execution writes as
it goes; on this template it has no failing case (`renderPipeline_eq`), so
the text written before a failure of the execution is not recorded. -/
def generatePipelineFile (filename : String) (template : PipelineTemplate)
    (createErr writeErr : Option String) : List Event × Option String :=
  match createErr with
  | some err => ([.create filename], some err)
  | none =>
    match renderPipeline template with
    | .error err => ([.create filename], some err)
    | .ok text => ([.create filename, .write filename text], writeErr)

/-- Go `createPipeline` for the argument `templateName`.  `order` is the
order of the `range` over the catalog; `mkdirErr`, `createErr` and `writeErr`
are the errors of `os.MkdirAll`, `os.Create` and of writing the file.  The
file name is `filepath.Join` of the directory and `templateName.yml`, which
for a key of the catalog is their concatenation with a slash. -/
def createPipeline (templateName : String) (order : Equiv.Perm (Fin 3))
    (mkdirErr createErr writeErr : Option String) : List Event :=
  match lookupTemplate templateName with
  | none =>
    .print ("Template '" ++ templateName ++ "' not found. Available templates:\n") ::
      (rangeOrder order).map fun entry => .print ("  - " ++ entry.1 ++ "\n")
  | some template =>
    let pipelineDir := ".github/workflows"
    match mkdirErr with
    | some err =>
      [.mkdirAll pipelineDir, .fatal ("Failed to create pipeline directory: " ++ err)]
    | none =>
      let pipelineFile := pipelineDir ++ "/" ++ templateName ++ ".yml"
      match generatePipelineFile pipelineFile template createErr writeErr with
      | (effects, some err) =>
        .mkdirAll pipelineDir :: effects ++ [.fatal ("Failed to generate pipeline: " ++ err)]
      | (effects, none) =>
        .mkdirAll pipelineDir :: effects ++ [.print ("Pipeline created: " ++ pipelineFile ++ "\n")]

/-- Go `listPipelineTemplates`. -/
def listPipelineTemplates (order : Equiv.Perm (Fin 3)) : List Event :=
  .print "Available pipeline templates:\n" ::
    (rangeOrder order).map fun entry =>
      .print ("  - " ++ entry.1 ++ " (Language: " ++ entry.2.Language ++ ")\n")

/-- The commit message `pushPipeline` uses for the line read from standard
input. -/
def commitMessage (line : String) : String :=
  if line = "" then "Add CI/CD pipeline" else line

/-- The `commands` slice of `pushPipeline`. -/
def gitCommands (config : Config) (commitMsg : String) : List (List String) :=
  [ ["git", "add", ".github/workflows/"],
    ["git", "commit", "-m", commitMsg],
    ["git", "push", "origin", config.GitBranch] ]

/-- The loop of `pushPipeline` over `commands`, from the `k`-th launch on:
the effects, and whether the loop ran to its end.  Each command is announced
and run; a failed run is fatal.  An empty command would make Go panic on
`cmdArgs[0]`; the slice holds none. -/
def runGitCommands (result : Results) : Nat → List (List String) → List Event × Bool
  | _, [] => ([], true)
  | _, [] :: _ => ([.fatal "index out of range"], false)
  | k, (exe :: args) :: rest =>
    let announce : List Event :=
      [ .print ("Running: " ++ " ".intercalate (exe :: args) ++ "\n"),
        .exec ⟨exe, args, ""⟩ ]
    match result k with
    | some err => (announce ++ [.fatal ("Git command failed: " ++ err)], false)
    | none =>
      let (effects, done) := runGitCommands result (k + 1) rest
      (announce ++ effects, done)

/-- Go `pushPipeline`; `line` is the commit message line `scanner.Text()`
returns. -/
def pushPipeline (config : Config) (line : String) (result : Results) : List Event :=
  let commitMsg := commitMessage line
  let (effects, done) := runGitCommands result 0 (gitCommands config commitMsg)
  .print "Commit message: " :: effects ++
    (if done then [.print "Pipeline pushed to repository successfully!\n"] else [])

/-- The three processes of a push, as `exec.Command` prepares them. -/
def pushInvocations (config : Config) (line : String) : List Invocation :=
  [ ⟨"git", ["add", ".github/workflows/"], ""⟩,
    ⟨"git", ["commit", "-m", commitMessage line], ""⟩,
    ⟨"git", ["push", "origin", config.GitBranch], ""⟩ ]

/-- The position of the first failing launch among the first `n`, if any. -/
def firstFailure (result : Results) (n : Nat) : Option Nat :=
  (List.range n).find? fun k => (result k).isSome

/-! ## Configuration commands -/

/-- Go `showConfig`. -/
def showConfig (config : Config) : List Event :=
  [ .print "Current configuration:\n",
    .print ("  Terraform Path: " ++ config.TerraformPath ++ "\n"),
    .print ("  Workspace Dir:  " ++ config.WorkspaceDir ++ "\n"),
    .print ("  Git Remote:     " ++ config.GitRemote ++ "\n"),
    .print ("  Git Branch:     " ++ config.GitBranch ++ "\n") ]

/-- Go `setConfig` on the global `config`: the configuration after the call
and the effects of the call. -/
def setConfig (config : Config) (key value : String) : Config × List Event :=
  let done : List Event := [.print ("Set " ++ key ++ " = " ++ value ++ "\n")]
  if key = "terraform-path" then ({ config with TerraformPath := value }, done)
  else if key = "workspace-dir" then ({ config with WorkspaceDir := value }, done)
  else if key = "git-remote" then ({ config with GitRemote := value }, done)
  else if key = "git-branch" then ({ config with GitBranch := value }, done)
  else (config, [.print ("Unknown configuration key: " ++ key ++ "\n")])

/-- The keys `setConfig` has a case for. -/
def configKeys : List String :=
  ["terraform-path", "workspace-dir", "git-remote", "git-branch"]

/-! ## Rendering: the text of the workflow -/

set_option maxRecDepth 100000 in
/-- The node list `githubActionsTemplate` is the template of the source:
written back as template text it is the source text, character by
character. -/
theorem unparse_githubActionsTemplate : unparse githubActionsTemplate = templateSource := by
  decide

/-- The rendering of any definition succeeds, and its text is the head, the
body of the Setup step and the three steps with their run blocks. -/
theorem renderPipeline_eq (t : PipelineTemplate) :
    renderPipeline t = .ok (workflowHead t ++ (setupBody t.Language ++ workflowSteps t)) := by
  simp only [renderPipeline, githubActionsTemplate, execute, execNode, PipelineTemplate.field,
    workflowHead, setupBody, workflowSteps, runBlock, stepIndent]
  simp only [String.append_assoc, reduceIte, String.reduceEq, String.reduceAppend]
  rfl

/-- Executing the template never fails: every definition has a rendered
text, the head followed by the Setup body of its language tag and by the
Build, Test and Deploy steps with their run blocks. -/
theorem renderPipeline_succeeds (t : PipelineTemplate) :
    ∃ text, renderPipeline t = .ok text ∧
      text = workflowHead t ++ (setupBody t.Language ++ workflowSteps t) :=
  ⟨_, renderPipeline_eq t, rfl⟩

/-- The run block of a non-empty step list starts with the line of the first
step, followed by the run block of the other steps. -/
theorem runBlock_cons_data (s : String) (rest : List String) :
    (runBlock (s :: rest)).data =
      (indentStep s).data ++ Char.ofNat 10 :: (runBlock rest).data := by
  simp only [runBlock, execRange, execBody, stepBody, execItem, indentStep, stepIndent,
    String.data_append, List.append_assoc, String.append_empty]
  rfl

/-- The line of a step without a line break holds no line break. -/
theorem lineBreak_not_mem_indentStep (s : String) (h : Char.ofNat 10 ∉ s.data) :
    ∀ x ∈ (indentStep s).data, ¬ ((x == Char.ofNat 10) = true) := by
  intro x hx hb
  have hx10 : x = Char.ofNat 10 := by simpa using hb
  subst hx10
  simp only [indentStep, stepIndent, String.data_append, List.mem_append] at hx
  rcases hx with hx | hx
  · revert hx; decide
  · exact h hx

/-- The lines of the run block of steps without line breaks: one line per
step, in order, then the indentation that precedes the closing `end`. -/
theorem textLines_runBlock (steps : List String) (h : ∀ s ∈ steps, Char.ofNat 10 ∉ s.data) :
    textLines (runBlock steps) = steps.map indentStep ++ [stepIndent] := by
  induction steps with
  | nil => decide
  | cons s rest ih =>
    have hs := lineBreak_not_mem_indentStep s (h s (List.mem_cons_self _ _))
    have hrest := ih (fun r hr => h r (List.mem_cons_of_mem _ hr))
    unfold textLines at hrest ⊢
    rw [runBlock_cons_data, List.splitOn,
      List.splitOnP_first _ _ hs (Char.ofNat 10) (by decide)]
    simp only [List.map_cons, List.cons_append]
    rw [← List.splitOn, hrest]

/-- The body of the Setup step is empty for a language tag that is none of
the three. -/
theorem setupBody_other (language : String) (h1 : language ≠ "javascript")
    (h2 : language ≠ "go") (h3 : language ≠ "python") : setupBody language = "" := by
  simp only [setupBody, h1, h2, h3, if_false]
  decide

set_option maxRecDepth 100000 in
/-- C1: for each of the three built-in template names, the catalog has an
entry, its rendering succeeds, and the rendered text holds the Setup block of
that name's language exactly once (setup-node for node, setup-go for go,
setup-python for python), holds neither of the other two blocks, and holds
the marker `actions/setup-` of a Setup block exactly once. -/
theorem builtin_templates_one_setup_block :
    (∃ text, (lookupTemplate "node").map renderPipeline = some (.ok text) ∧
      occurrences setupNodeBlock text = 1 ∧ occurrences setupGoBlock text = 0 ∧
      occurrences setupPythonBlock text = 0 ∧ occurrences "actions/setup-" text = 1) ∧
    (∃ text, (lookupTemplate "go").map renderPipeline = some (.ok text) ∧
      occurrences setupGoBlock text = 1 ∧ occurrences setupNodeBlock text = 0 ∧
      occurrences setupPythonBlock text = 0 ∧ occurrences "actions/setup-" text = 1) ∧
    (∃ text, (lookupTemplate "python").map renderPipeline = some (.ok text) ∧
      occurrences setupPythonBlock text = 1 ∧ occurrences setupNodeBlock text = 0 ∧
      occurrences setupGoBlock text = 0 ∧ occurrences "actions/setup-" text = 1) ∧
    (lookupTemplate "node").map (fun t => setupBlockOf t.Language) = some setupNodeBlock ∧
    (lookupTemplate "go").map (fun t => setupBlockOf t.Language) = some setupGoBlock ∧
    (lookupTemplate "python").map (fun t => setupBlockOf t.Language) = some setupPythonBlock :=
  ⟨⟨_, rfl, by decide, by decide, by decide, by decide⟩,
   ⟨_, rfl, by decide, by decide, by decide, by decide⟩,
   ⟨_, rfl, by decide, by decide, by decide, by decide⟩,
   by decide, by decide, by decide⟩

set_option maxRecDepth 100000 in
/-- C2, the claim as stated fails: a definition whose single build step
holds a line break renders a Build run block of two step lines, not one, and
the second of them is not indented. -/
theorem step_lines_counterexample :
    renderPipeline ⟨"X", "go", ["a\nb"], [], []⟩ =
      .ok (workflowHead ⟨"X", "go", ["a\nb"], [], []⟩ ++ (setupGoBlock ++
        ("\n    \n    - name: Build\n      run: |\n" ++ "        a\nb\n        " ++
        ("\n    \n    - name: Test\n      run: |\n" ++ "        " ++
        ("\n    \n    - name: Deploy\n      if: github.ref == 'refs/heads/main'\n      run: |\n" ++
          "        " ++ "\n"))))) ∧
    runBlock ["a\nb"] = "        a\nb\n        " ∧
    textLines (runBlock ["a\nb"]) = ["        a", "b", "        "] ∧
    textLines (runBlock ["a\nb"]) ≠ ["a\nb"].map indentStep ++ [stepIndent] := by
  refine ⟨?_, by decide, by decide, by decide⟩
  rw [renderPipeline_eq]
  exact congrArg Except.ok (by decide)

/-- C2, amended: for every definition none of whose steps holds a line
break, the rendered text is the head, the Setup body and the Build, Test and
Deploy steps, each `run: |` followed by its run block; the lines of the Build
run block are the build steps, each behind the indentation, in list order,
followed by one line of indentation only (the blanks before the closing
`end`), and likewise for the Test and the Deploy block; the run block of an
empty list is that indentation alone and holds no step line. -/
theorem step_lines_in_order (t : PipelineTemplate)
    (hb : ∀ s ∈ t.BuildSteps, Char.ofNat 10 ∉ s.data)
    (ht : ∀ s ∈ t.TestSteps, Char.ofNat 10 ∉ s.data)
    (hd : ∀ s ∈ t.DeploySteps, Char.ofNat 10 ∉ s.data) :
    renderPipeline t = .ok (workflowHead t ++ (setupBody t.Language ++
      ("\n    \n    - name: Build\n      run: |\n" ++ runBlock t.BuildSteps ++
      ("\n    \n    - name: Test\n      run: |\n" ++ runBlock t.TestSteps ++
      ("\n    \n    - name: Deploy\n      if: github.ref == 'refs/heads/main'\n      run: |\n" ++
        runBlock t.DeploySteps ++ "\n"))))) ∧
    textLines (runBlock t.BuildSteps) = t.BuildSteps.map indentStep ++ [stepIndent] ∧
    textLines (runBlock t.TestSteps) = t.TestSteps.map indentStep ++ [stepIndent] ∧
    textLines (runBlock t.DeploySteps) = t.DeploySteps.map indentStep ++ [stepIndent] ∧
    (textLines (runBlock t.BuildSteps)).length = t.BuildSteps.length + 1 ∧
    (textLines (runBlock t.TestSteps)).length = t.TestSteps.length + 1 ∧
    (textLines (runBlock t.DeploySteps)).length = t.DeploySteps.length + 1 ∧
    runBlock [] = stepIndent ∧ textLines (runBlock []) = [stepIndent] := by
  have h1 := textLines_runBlock t.BuildSteps hb
  have h2 := textLines_runBlock t.TestSteps ht
  have h3 := textLines_runBlock t.DeploySteps hd
  refine ⟨renderPipeline_eq t, h1, h2, h3, ?_, ?_, ?_, by decide, by decide⟩
  · rw [h1]; simp
  · rw [h2]; simp
  · rw [h3]; simp

/-- The amended C2 at the node entry of the catalog, none of whose steps
holds a line break. -/
theorem step_lines_in_order_witness :
    textLines (runBlock ["npm ci", "npm run build"]) =
      ["        npm ci", "        npm run build", "        "] ∧
    textLines (runBlock ["npm test", "npm run lint"]) =
      ["        npm test", "        npm run lint", "        "] ∧
    textLines (runBlock ["npm run deploy"]) = ["        npm run deploy", "        "] :=
  have h := step_lines_in_order
    ⟨"Node.js", "javascript", ["npm ci", "npm run build"], ["npm test", "npm run lint"],
      ["npm run deploy"]⟩
    (by decide) (by decide) (by decide)
  ⟨h.2.1, h.2.2.1, h.2.2.2.1⟩

/-- A text that holds fewer copies of some character than the needle does not
hold the needle. -/
theorem countOccurrences_eq_zero (c : Char) (needle hay : List Char)
    (h : hay.count c < needle.count c) : countOccurrences needle hay = 0 := by
  induction hay with
  | nil =>
    have hne : needle ≠ [] := by
      rintro rfl
      simp at h
    cases needle with
    | nil => exact absurd rfl hne
    | cons a r => rfl
  | cons x xs ih =>
    have hpre : needle.isPrefixOf (x :: xs) = false := by
      cases hp : needle.isPrefixOf (x :: xs) with
      | false => rfl
      | true =>
        have hsub : needle.Sublist (x :: xs) := (List.isPrefixOf_iff_prefix.mp hp).sublist
        have := hsub.count_le c
        omega
    have hxs : xs.count c < needle.count c :=
      lt_of_le_of_lt (List.count_le_count_cons c x xs) h
    simp only [countOccurrences, hpre, ih hxs]
    rfl

/-- The Setup step for a language tag that is none of the three: the name
line, a line break and six blanks. -/
theorem setupStep_other (t : PipelineTemplate)
    (h1 : t.Language ≠ "javascript") (h2 : t.Language ≠ "go") (h3 : t.Language ≠ "python") :
    (setupStep t).data =
      ("    - name: Setup " ++ t.Language).data ++ Char.ofNat 10 :: "      ".data := by
  simp only [setupStep, setupBody_other t.Language h1 h2 h3, String.data_append,
    List.append_assoc, String.append_empty]

/-- The lines of the Setup step for a language tag that is none of the three
and holds no line break: the name line and a line of six blanks. -/
theorem textLines_setupStep (t : PipelineTemplate)
    (h1 : t.Language ≠ "javascript") (h2 : t.Language ≠ "go") (h3 : t.Language ≠ "python")
    (hl : Char.ofNat 10 ∉ t.Language.data) :
    textLines (setupStep t) = ["    - name: Setup " ++ t.Language, "      "] := by
  have hname : ∀ x ∈ ("    - name: Setup " ++ t.Language).data,
      ¬ ((x == Char.ofNat 10) = true) := by
    intro x hx hb
    have hx10 : x = Char.ofNat 10 := by simpa using hb
    subst hx10
    simp only [String.data_append, List.mem_append] at hx
    rcases hx with hx | hx
    · revert hx; decide
    · exact hl hx
  unfold textLines
  rw [setupStep_other t h1 h2 h3, List.splitOn,
    List.splitOnP_first _ _ hname (Char.ofNat 10) (by decide)]
  have hrest : List.splitOnP (fun x => x == Char.ofNat 10) "      ".data = ["      ".data] := by
    decide
  rw [hrest]
  rfl

/-- The Setup step for a language tag that is none of the three and holds no
line break holds no text with two line breaks. -/
theorem occurrences_setupStep (t : PipelineTemplate)
    (h1 : t.Language ≠ "javascript") (h2 : t.Language ≠ "go") (h3 : t.Language ≠ "python")
    (hl : Char.ofNat 10 ∉ t.Language.data) (block : String)
    (hb : 2 ≤ block.data.count (Char.ofNat 10)) :
    occurrences block (setupStep t) = 0 := by
  apply countOccurrences_eq_zero (Char.ofNat 10)
  rw [setupStep_other t h1 h2 h3]
  have hc : (("    - name: Setup " ++ t.Language).data ++
      Char.ofNat 10 :: "      ".data).count (Char.ofNat 10) = 1 := by
    rw [List.count_append, String.data_append, List.count_append,
      List.count_eq_zero_of_not_mem hl]
    decide
  omega

/-- The rendered text of any definition, split at the Setup step: what
precedes the step, the step, then the blank line and the Build, Test and
Deploy steps. -/
theorem renderPipeline_setupStep (t : PipelineTemplate) :
    renderPipeline t = .ok (workflowPreamble t ++ (setupStep t ++
      ("\n    \n    - name: Build" ++ ("\n      run: |\n" ++ runBlock t.BuildSteps ++
      ("\n    \n    - name: Test\n      run: |\n" ++ runBlock t.TestSteps ++
      ("\n    \n    - name: Deploy\n      if: github.ref == 'refs/heads/main'\n      run: |\n" ++
        runBlock t.DeploySteps ++ "\n")))))) := by
  rw [renderPipeline_eq]
  simp only [workflowHead, workflowPreamble, setupStep, workflowSteps, String.append_assoc]
  rfl

/-- The lines from the name line of the Setup step to the name line of the
Build step, for a language tag that is none of the three and holds no line
break: between the two there are only a line of six blanks and a line of
four. -/
theorem textLines_setupStep_to_build (t : PipelineTemplate)
    (h1 : t.Language ≠ "javascript") (h2 : t.Language ≠ "go") (h3 : t.Language ≠ "python")
    (hl : Char.ofNat 10 ∉ t.Language.data) :
    textLines (setupStep t ++ "\n    \n    - name: Build") =
      ["    - name: Setup " ++ t.Language, "      ", "    ", "    - name: Build"] := by
  have hname : ∀ x ∈ ("    - name: Setup " ++ t.Language).data,
      ¬ ((x == Char.ofNat 10) = true) := by
    intro x hx hb
    have hx10 : x = Char.ofNat 10 := by simpa using hb
    subst hx10
    simp only [String.data_append, List.mem_append] at hx
    rcases hx with hx | hx
    · revert hx; decide
    · exact hl hx
  have hdata : (setupStep t ++ "\n    \n    - name: Build").data =
      ("    - name: Setup " ++ t.Language).data ++
        Char.ofNat 10 :: "      \n    \n    - name: Build".data := by
    rw [String.data_append, setupStep_other t h1 h2 h3, List.append_assoc]
    rfl
  have hrest : List.splitOnP (fun x => x == Char.ofNat 10)
      "      \n    \n    - name: Build".data =
      ["      ".data, "    ".data, "    - name: Build".data] := by
    decide
  unfold textLines
  rw [hdata, List.splitOn, List.splitOnP_first _ _ hname (Char.ofNat 10) (by decide), hrest]
  rfl

set_option maxRecDepth 100000 in
/-- C9, the claim as stated fails: a language tag that is none of the three
but holds a line break followed by the text of the setup-node block renders
a Setup step with a `uses:` line and the `with:` lines of that block between
its name line and the Build step, although each of the three conditionals
prints nothing. -/
theorem other_language_setup_counterexample :
    ("x\n      uses: actions/setup-node@v3\n      with:\n        node-version: '18'" : String) ≠
      "javascript" ∧
    ("x\n      uses: actions/setup-node@v3\n      with:\n        node-version: '18'" : String) ≠
      "go" ∧
    ("x\n      uses: actions/setup-node@v3\n      with:\n        node-version: '18'" : String) ≠
      "python" ∧
    renderPipeline ⟨"X",
        "x\n      uses: actions/setup-node@v3\n      with:\n        node-version: '18'",
        [], [], []⟩ =
      .ok (workflowPreamble ⟨"X",
          "x\n      uses: actions/setup-node@v3\n      with:\n        node-version: '18'",
          [], [], []⟩ ++
        ("    - name: Setup x\n      uses: actions/setup-node@v3\n      with:\n" ++
         "        node-version: '18'\n      " ++
        ("\n    \n    - name: Build\n      run: |\n        " ++
        ("\n    \n    - name: Test\n      run: |\n        " ++
        ("\n    \n    - name: Deploy\n      if: github.ref == 'refs/heads/main'\n" ++
          "      run: |\n        \n"))))) ∧
    setupStep ⟨"X",
        "x\n      uses: actions/setup-node@v3\n      with:\n        node-version: '18'",
        [], [], []⟩ =
      "    - name: Setup x\n      uses: actions/setup-node@v3\n      with:\n" ++
        "        node-version: '18'\n      " ∧
    textLines (setupStep ⟨"X",
        "x\n      uses: actions/setup-node@v3\n      with:\n        node-version: '18'",
        [], [], []⟩) =
      ["    - name: Setup x", "      uses: actions/setup-node@v3", "      with:",
        "        node-version: '18'", "      "] ∧
    occurrences setupNodeBlock (setupStep ⟨"X",
        "x\n      uses: actions/setup-node@v3\n      with:\n        node-version: '18'",
        [], [], []⟩) = 1 := by
  refine ⟨by decide, by decide, by decide, ?_, by decide, by decide, by decide⟩
  rw [renderPipeline_eq]
  exact congrArg Except.ok (by decide)

/-- C9, amended: for every definition whose language tag is none of
javascript, go and python and holds no line break, the rendering succeeds
and the Setup step of the rendered text has an empty body: the step is its
name line and a line of six blanks, the only lines between its name line and
the name line of the Build step are that line and a line of four blanks (no
`uses:` line, no `with:` line), the step holds none of the three setup blocks,
and each of the three conditionals of the template prints nothing. -/
theorem other_language_empty_setup (t : PipelineTemplate)
    (h1 : t.Language ≠ "javascript") (h2 : t.Language ≠ "go") (h3 : t.Language ≠ "python")
    (hl : Char.ofNat 10 ∉ t.Language.data) :
    renderPipeline t = .ok (workflowPreamble t ++ (setupStep t ++
      ("\n    \n    - name: Build" ++ ("\n      run: |\n" ++ runBlock t.BuildSteps ++
      ("\n    \n    - name: Test\n      run: |\n" ++ runBlock t.TestSteps ++
      ("\n    \n    - name: Deploy\n      if: github.ref == 'refs/heads/main'\n      run: |\n" ++
        runBlock t.DeploySteps ++ "\n")))))) ∧
    setupStep t = "    - name: Setup " ++ t.Language ++ "\n      " ∧
    textLines (setupStep t) = ["    - name: Setup " ++ t.Language, "      "] ∧
    textLines (setupStep t ++ "\n    \n    - name: Build") =
      ["    - name: Setup " ++ t.Language, "      ", "    ", "    - name: Build"] ∧
    occurrences setupNodeBlock (setupStep t) = 0 ∧
    occurrences setupGoBlock (setupStep t) = 0 ∧
    occurrences setupPythonBlock (setupStep t) = 0 ∧
    occurrences "uses:" "      " = 0 ∧ occurrences "with:" "      " = 0 ∧
    occurrences "uses:" "    " = 0 ∧ occurrences "with:" "    " = 0 ∧
    setupBody t.Language = "" ∧
    execNode t (.ifEq "Language" "javascript" setupNodeBlock) = .ok "" ∧
    execNode t (.ifEq "Language" "go" setupGoBlock) = .ok "" ∧
    execNode t (.ifEq "Language" "python" setupPythonBlock) = .ok "" := by
  have hs := setupBody_other t.Language h1 h2 h3
  refine ⟨renderPipeline_setupStep t, ?_, textLines_setupStep t h1 h2 h3 hl,
    textLines_setupStep_to_build t h1 h2 h3 hl,
    occurrences_setupStep t h1 h2 h3 hl _ (by decide),
    occurrences_setupStep t h1 h2 h3 hl _ (by decide),
    occurrences_setupStep t h1 h2 h3 hl _ (by decide),
    by decide, by decide, by decide, by decide, hs, ?_, ?_, ?_⟩
  · rw [setupStep, hs, String.append_empty]
  · simp [execNode, PipelineTemplate.field, h1]
  · simp [execNode, PipelineTemplate.field, h2]
  · simp [execNode, PipelineTemplate.field, h3]

/-- The amended C9 at a definition tagged rust: the Setup step is its name
line and a line of blanks, and it holds none of the three setup blocks. -/
theorem other_language_empty_setup_witness :
    textLines (setupStep ⟨"Rust", "rust", ["cargo build"], ["cargo test"], []⟩) =
      ["    - name: Setup rust", "      "] ∧
    occurrences setupNodeBlock (setupStep ⟨"Rust", "rust", ["cargo build"], ["cargo test"], []⟩)
      = 0 :=
  have h := other_language_empty_setup ⟨"Rust", "rust", ["cargo build"], ["cargo test"], []⟩
    (by decide) (by decide) (by decide) (by decide)
  ⟨h.2.2.1, h.2.2.2.2.1⟩

/-! ## The confirmation prompt -/

/-- The four branches of `toLowerRune`: a capital ASCII letter, one of the two
runes outside ASCII that lowercase into ASCII, or a rune that is kept. -/
theorem toLowerRune_cases (c : Char) :
    (∃ n, 65 ≤ n ∧ n ≤ 90 ∧ c = Char.ofNat n) ∨ c = Char.ofNat 0x212A ∨ c = Char.ofNat 0x130 ∨
      (toLowerRune c = c ∧ ¬ (65 ≤ c.toNat ∧ c.toNat ≤ 90)) := by
  by_cases h1 : 65 ≤ c.toNat ∧ c.toNat ≤ 90
  · exact Or.inl ⟨c.toNat, h1.1, h1.2, (Char.ofNat_toNat c).symm⟩
  · by_cases h2 : c.toNat = 0x212A
    · exact Or.inr (Or.inl (by rw [← h2, Char.ofNat_toNat]))
    · by_cases h3 : c.toNat = 0x130
      · exact Or.inr (Or.inr (Or.inl (by rw [← h3, Char.ofNat_toNat])))
      · exact Or.inr (Or.inr (Or.inr ⟨by simp [toLowerRune, h1, h2, h3], h1⟩))

/-- Only `y` and `Y` lowercase to `y`. -/
theorem toLowerRune_eq_y (c : Char) : toLowerRune c = 'y' ↔ c = 'y' ∨ c = 'Y' := by
  rcases toLowerRune_cases c with ⟨n, h1, h2, rfl⟩ | rfl | rfl | ⟨h, hn⟩
  · interval_cases n <;> decide
  · decide
  · decide
  · rw [h]
    constructor
    · exact Or.inl
    · rintro (h | rfl)
      · exact h
      · exact absurd (by decide) hn

/-- Only `e` and `E` lowercase to `e`. -/
theorem toLowerRune_eq_e (c : Char) : toLowerRune c = 'e' ↔ c = 'e' ∨ c = 'E' := by
  rcases toLowerRune_cases c with ⟨n, h1, h2, rfl⟩ | rfl | rfl | ⟨h, hn⟩
  · interval_cases n <;> decide
  · decide
  · decide
  · rw [h]
    constructor
    · exact Or.inl
    · rintro (h | rfl)
      · exact h
      · exact absurd (by decide) hn

/-- Only `s` and `S` lowercase to `s`. -/
theorem toLowerRune_eq_s (c : Char) : toLowerRune c = 's' ↔ c = 's' ∨ c = 'S' := by
  rcases toLowerRune_cases c with ⟨n, h1, h2, rfl⟩ | rfl | rfl | ⟨h, hn⟩
  · interval_cases n <;> decide
  · decide
  · decide
  · rw [h]
    constructor
    · exact Or.inl
    · rintro (h | rfl)
      · exact h
      · exact absurd (by decide) hn

/-- The texts that lowercase to `yes`, rune by rune. -/
theorem map_toLowerRune_yes (l : List Char) :
    l.map toLowerRune = ['y', 'e', 's'] ↔
      ∃ a b c, l = [a, b, c] ∧ (a = 'y' ∨ a = 'Y') ∧ (b = 'e' ∨ b = 'E') ∧ (c = 's' ∨ c = 'S') := by
  match l with
  | [] => simp
  | [a] => simp
  | [a, b] => simp
  | [a, b, c] =>
    simp only [List.map_cons, List.map_nil, List.cons.injEq, and_true, toLowerRune_eq_y,
      toLowerRune_eq_e, toLowerRune_eq_s]
    constructor
    · intro h
      exact ⟨a, b, c, ⟨rfl, rfl, rfl⟩, h⟩
    · rintro ⟨x, y, z, ⟨rfl, rfl, rfl⟩, h⟩
      exact h
  | a :: b :: c :: d :: r => simp

/-- The texts that lowercase to `y`, rune by rune. -/
theorem map_toLowerRune_y (l : List Char) :
    l.map toLowerRune = ['y'] ↔ l = ['y'] ∨ l = ['Y'] := by
  match l with
  | [] => simp
  | [a] => simp [toLowerRune_eq_y]
  | a :: b :: r => simp

/-- The eight texts that lowercase to `yes`. -/
theorem toLower_eq_yes (s : String) :
    toLower s = "yes" ↔ s ∈ ["yes", "yeS", "yEs", "yES", "Yes", "YeS", "YEs", "YES"] := by
  obtain ⟨l⟩ := s
  rw [toLower, String.ext_iff]
  show List.map toLowerRune l = ['y', 'e', 's'] ↔ _
  rw [map_toLowerRune_yes]
  simp only [List.mem_cons, List.mem_singleton, String.ext_iff, List.not_mem_nil, or_false]
  show _ ↔ l = ['y', 'e', 's'] ∨ l = ['y', 'e', 'S'] ∨ l = ['y', 'E', 's'] ∨ l = ['y', 'E', 'S'] ∨
    l = ['Y', 'e', 's'] ∨ l = ['Y', 'e', 'S'] ∨ l = ['Y', 'E', 's'] ∨ l = ['Y', 'E', 'S']
  constructor
  · rintro ⟨a, b, c, rfl, (rfl | rfl), (rfl | rfl), (rfl | rfl)⟩ <;> simp
  · rintro (rfl | rfl | rfl | rfl | rfl | rfl | rfl | rfl) <;> exact ⟨_, _, _, rfl, by simp, by simp, by simp⟩

/-- The two texts that lowercase to `y`. -/
theorem toLower_eq_y (s : String) : toLower s = "y" ↔ s ∈ ["y", "Y"] := by
  obtain ⟨l⟩ := s
  rw [toLower, String.ext_iff]
  show List.map toLowerRune l = ['y'] ↔ _
  rw [map_toLowerRune_y]
  simp only [List.mem_cons, List.mem_singleton, String.ext_iff, List.not_mem_nil, or_false]

/-- The answer is accepted exactly when its trimmed text is `yes` or `y` up
to the case of its letters. -/
theorem confirmAction_iff (line : String) :
    confirmAction line = true ↔ trimSpace line ∈ yesAnswers := by
  simp only [confirmAction, Bool.or_eq_true, decide_eq_true_eq, toLower_eq_yes, toLower_eq_y,
    yesAnswers, List.mem_cons, List.mem_singleton, List.not_mem_nil, or_false]
  tauto

/-- Dropping leading white space stops at the first rune that is none. -/
theorem dropWhile_spaces_append (pre rest : List Char) (x : Char)
    (hpre : ∀ c ∈ pre, isSpace c = true) (hx : isSpace x = false) :
    (pre ++ x :: rest).dropWhile isSpace = x :: rest := by
  induction pre with
  | nil => simp [List.dropWhile, hx]
  | cons p ps ih =>
    have hp : isSpace p = true := hpre p (List.mem_cons_self _ _)
    simp only [List.cons_append, List.dropWhile, hp]
    exact ih (fun c hc => hpre c (List.mem_cons_of_mem _ hc))

/-- A text is its trimmed text between two runs of white space. -/
theorem trimSpace_data_decomp (s : String) :
    ∃ pre suf, s.data = pre ++ (trimSpace s).data ++ suf ∧
      (∀ c ∈ pre, isSpace c = true) ∧ (∀ c ∈ suf, isSpace c = true) := by
  refine ⟨s.data.takeWhile isSpace,
    (((s.data.dropWhile isSpace).reverse).takeWhile isSpace).reverse, ?_, ?_, ?_⟩
  · have h1 := List.takeWhile_append_dropWhile isSpace s.data
    have h2 := List.takeWhile_append_dropWhile isSpace (s.data.dropWhile isSpace).reverse
    have h3 := congrArg List.reverse h2
    rw [List.reverse_append, List.reverse_reverse] at h3
    simp only [trimSpace, List.append_assoc]
    rw [h3, h1]
  · intro c hc
    exact List.mem_takeWhile_imp hc
  · intro c hc
    exact List.mem_takeWhile_imp (List.mem_reverse.mp hc)

/-- Trimming removes white space around a text that neither starts nor ends
with white space, and nothing else. -/
theorem trimSpace_core (pre suf core r1 r2 : List Char) (x y : Char)
    (hpre : ∀ c ∈ pre, isSpace c = true) (hsuf : ∀ c ∈ suf, isSpace c = true)
    (h1 : core = x :: r1) (h2 : core = r2 ++ [y])
    (hx : isSpace x = false) (hy : isSpace y = false) :
    trimSpace ⟨pre ++ core ++ suf⟩ = ⟨core⟩ := by
  have hd : (pre ++ core ++ suf).dropWhile isSpace = core ++ suf := by
    rw [h1, List.append_assoc, List.cons_append, dropWhile_spaces_append pre _ x hpre hx]
  have hr : (core ++ suf).reverse = suf.reverse ++ y :: r2.reverse := by
    rw [h2]; simp
  have hsr : ∀ c ∈ suf.reverse, isSpace c = true := fun c hc => hsuf c (List.mem_reverse.mp hc)
  simp only [trimSpace]
  rw [hd, hr, dropWhile_spaces_append suf.reverse _ y hsr hy, h2]
  simp

/-- An accepted answer between two runs of white space trims to itself. -/
theorem confirmAction_of_padded (pre suf : List Char) (a : String)
    (hpre : ∀ c ∈ pre, isSpace c = true) (hsuf : ∀ c ∈ suf, isSpace c = true)
    (ha : a ∈ yesAnswers) : trimSpace ⟨pre ++ a.data ++ suf⟩ = a := by
  simp only [yesAnswers, List.mem_cons, List.mem_singleton, List.not_mem_nil, or_false] at ha
  rcases ha with rfl | rfl | rfl | rfl | rfl | rfl | rfl | rfl | rfl | rfl
  · exact trimSpace_core pre suf _ ['e', 's'] ['y', 'e'] 'y' 's' hpre hsuf rfl rfl (by decide) (by decide)
  · exact trimSpace_core pre suf _ ['e', 'S'] ['y', 'e'] 'y' 'S' hpre hsuf rfl rfl (by decide) (by decide)
  · exact trimSpace_core pre suf _ ['E', 's'] ['y', 'E'] 'y' 's' hpre hsuf rfl rfl (by decide) (by decide)
  · exact trimSpace_core pre suf _ ['E', 'S'] ['y', 'E'] 'y' 'S' hpre hsuf rfl rfl (by decide) (by decide)
  · exact trimSpace_core pre suf _ ['e', 's'] ['Y', 'e'] 'Y' 's' hpre hsuf rfl rfl (by decide) (by decide)
  · exact trimSpace_core pre suf _ ['e', 'S'] ['Y', 'e'] 'Y' 'S' hpre hsuf rfl rfl (by decide) (by decide)
  · exact trimSpace_core pre suf _ ['E', 's'] ['Y', 'E'] 'Y' 's' hpre hsuf rfl rfl (by decide) (by decide)
  · exact trimSpace_core pre suf _ ['E', 'S'] ['Y', 'E'] 'Y' 'S' hpre hsuf rfl rfl (by decide) (by decide)
  · exact trimSpace_core pre suf _ [] [] 'y' 'y' hpre hsuf rfl rfl (by decide) (by decide)
  · exact trimSpace_core pre suf _ [] [] 'Y' 'Y' hpre hsuf rfl rfl (by decide) (by decide)

/-- C5, the claim as stated fails: the line made of a blank and `yes` is
accepted, and so is `Y` followed by a tab, yet neither line is `yes` or `y`
up to the case of its letters. -/
theorem confirmAction_accepts_padded_answer :
    confirmAction " yes" = true ∧ " yes" ∉ yesAnswers ∧
    confirmAction "Y\t" = true ∧ "Y\t" ∉ yesAnswers := by
  decide

/-- C5, amended: for every input line, `confirmAction` returns true if and
only if the line with its leading and trailing white space removed is `yes`
or `y` up to the case of its letters; equivalently, if and only if the line
is such an answer between two runs of white space.  Every other line
cancels. -/
theorem confirmAction_iff_trimmed_answer (line : String) :
    (confirmAction line = true ↔ trimSpace line ∈ yesAnswers) ∧
    (confirmAction line = true ↔
      ∃ pre suf a, a ∈ yesAnswers ∧ line.data = pre ++ a.data ++ suf ∧
        (∀ c ∈ pre, isSpace c = true) ∧ (∀ c ∈ suf, isSpace c = true)) ∧
    (confirmAction line = false ↔ trimSpace line ∉ yesAnswers) := by
  have h := confirmAction_iff line
  refine ⟨h, ?_, ?_⟩
  · rw [h]
    constructor
    · intro hmem
      obtain ⟨pre, suf, hdata, hpre, hsuf⟩ := trimSpace_data_decomp line
      exact ⟨pre, suf, trimSpace line, hmem, hdata, hpre, hsuf⟩
    · rintro ⟨pre, suf, a, ha, hdata, hpre, hsuf⟩
      have hline : line = ⟨pre ++ a.data ++ suf⟩ := String.ext hdata
      rw [hline, confirmAction_of_padded pre suf a hpre hsuf ha]
      exact ha
  · rw [← h]
    cases confirmAction line <;> simp

/-! ## Terraform commands: the confirmation gate -/

/-- The processes `runTerraformCommand` launches: the configured executable,
once, with the arguments given, in the directory given. -/
theorem execs_runTerraformCommand (config : Config) (dir : String) (args : List String)
    (result : Results) :
    execs (runTerraformCommand config dir args result) = [⟨config.TerraformPath, args, dir⟩] := by
  unfold runTerraformCommand
  cases result 0 <;> rfl

/-- C6: for terraform destroy and terraform apply with any arguments, the
processes launched are none when `confirmAction` rejects the answer, and
exactly one when it accepts it: the configured executable with the arguments
destroy -auto-approve (respectively apply -auto-approve) in the directory
`getCurrentDir` gives, which is the first argument when there is one and the
working directory otherwise.  The answer `no` is rejected, so it launches
nothing. -/
theorem terraform_confirmation_gate (config : Config) (args : List String) (pwd line : String)
    (result : Results) :
    execs (runTerraformDestroy config args pwd line result) =
      (if confirmAction line = true then
        [⟨config.TerraformPath, ["destroy", "-auto-approve"], getCurrentDir args pwd⟩]
       else []) ∧
    execs (runTerraformApply config args pwd line result) =
      (if confirmAction line = true then
        [⟨config.TerraformPath, ["apply", "-auto-approve"], getCurrentDir args pwd⟩]
       else []) ∧
    execs (runTerraformDestroy config args pwd "no" result) = [] ∧
    execs (runTerraformApply config args pwd "no" result) = [] ∧
    (∀ dir rest, getCurrentDir (dir :: rest) pwd = dir) ∧
    getCurrentDir [] pwd = pwd := by
  have hno : confirmAction "no" = false := by decide
  refine ⟨?_, ?_, ?_, ?_, fun _ _ => rfl, rfl⟩
  · cases h : confirmAction line <;>
      simp [runTerraformDestroy, h, execs, execs_runTerraformCommand]
  · cases h : confirmAction line <;>
      simp [runTerraformApply, h, execs, execs_runTerraformCommand]
  · simp [runTerraformDestroy, hno, execs]
  · simp [runTerraformApply, hno, execs]

/-! ## Pipeline commands -/

/-- Whatever the order of the `range`, it visits the entries of the catalog,
each once. -/
theorem rangeOrder_perm (order : Equiv.Perm (Fin 3)) :
    (rangeOrder order).Perm getPipelineTemplates := by
  have h : rangeOrder order =
      ((List.finRange 3).map order).filterMap fun i => getPipelineTemplates.get? i.val := by
    simp [rangeOrder, List.filterMap_map, Function.comp_def]
  rw [h]
  exact (order.map_finRange_perm.filterMap _).trans (by decide)

/-- A name that is no key of the catalog is not found. -/
theorem lookupTemplate_none (templateName : String)
    (h : templateName ∉ getPipelineTemplates.map Prod.fst) :
    lookupTemplate templateName = none := by
  simp only [getPipelineTemplates, List.map_cons, List.map_nil, List.mem_cons, List.mem_singleton,
    List.not_mem_nil, or_false, not_or] at h
  obtain ⟨h1, h2, h3⟩ := h
  have e1 : (templateName == "node") = false := beq_eq_false_iff_ne.mpr h1
  have e2 : (templateName == "go") = false := beq_eq_false_iff_ne.mpr h2
  have e3 : (templateName == "python") = false := beq_eq_false_iff_ne.mpr h3
  simp only [lookupTemplate, getPipelineTemplates, List.lookup, e1, e2, e3]

/-- The line that announces the list of names is no line of the list. -/
theorem header_ne_item (templateName name : String) :
    Event.print ("Template '" ++ templateName ++ "' not found. Available templates:\n") ≠
      Event.print ("  - " ++ name ++ "\n") := by
  intro h
  simp only [Event.print.injEq] at h
  have := congrArg (fun s => s.data.head?) h
  simp [String.data_append] at this

/-- A trace of prints launches no process. -/
theorem execs_eq_nil_of_prints (tr : List Event) (h : ∀ e ∈ tr, ∃ s, e = Event.print s) :
    execs tr = [] := by
  induction tr with
  | nil => rfl
  | cons e rest ih =>
    obtain ⟨s, rfl⟩ := h e (List.mem_cons_self _ _)
    simp only [execs]
    exact ih (fun x hx => h x (List.mem_cons_of_mem _ hx))

/-- C7: for every template name that is no key of the catalog, whatever the
order of the `range` over the map and whatever the file system would answer,
`createPipeline` prints the not-found line and then one line per catalog
entry; it creates no directory, creates and writes no file, launches no
process and does not call `log.Fatalf`; and the line of every known template
name is printed exactly once. -/
theorem createPipeline_unknown_template (templateName : String) (order : Equiv.Perm (Fin 3))
    (mkdirErr createErr writeErr : Option String)
    (h : templateName ∉ getPipelineTemplates.map Prod.fst) :
    createPipeline templateName order mkdirErr createErr writeErr =
      .print ("Template '" ++ templateName ++ "' not found. Available templates:\n") ::
        (rangeOrder order).map (fun entry => .print ("  - " ++ entry.1 ++ "\n")) ∧
    (∀ e ∈ createPipeline templateName order mkdirErr createErr writeErr,
      e.isFileEffect = false ∧ e.isFatal = false) ∧
    execs (createPipeline templateName order mkdirErr createErr writeErr) = [] ∧
    (∀ name ∈ getPipelineTemplates.map Prod.fst,
      (createPipeline templateName order mkdirErr createErr writeErr).count
        (.print ("  - " ++ name ++ "\n")) = 1) ∧
    (createPipeline templateName order mkdirErr createErr writeErr).length =
      getPipelineTemplates.length + 1 := by
  have hperm := rangeOrder_perm order
  have heq : createPipeline templateName order mkdirErr createErr writeErr =
      .print ("Template '" ++ templateName ++ "' not found. Available templates:\n") ::
        (rangeOrder order).map (fun entry => .print ("  - " ++ entry.1 ++ "\n")) := by
    simp only [createPipeline, lookupTemplate_none templateName h]
  have hprint : ∀ e ∈ createPipeline templateName order mkdirErr createErr writeErr,
      ∃ s, e = Event.print s := by
    intro e he
    rw [heq, List.mem_cons, List.mem_map] at he
    rcases he with rfl | ⟨entry, _, rfl⟩
    · exact ⟨_, rfl⟩
    · exact ⟨_, rfl⟩
  refine ⟨heq, ?_, ?_, ?_, ?_⟩
  · intro e he
    obtain ⟨s, rfl⟩ := hprint e he
    exact ⟨rfl, rfl⟩
  · exact execs_eq_nil_of_prints _ hprint
  · intro name hname
    rw [heq, List.count_cons_of_ne (header_ne_item templateName name).symm,
      (hperm.map _).count_eq]
    simp only [getPipelineTemplates, List.map_cons, List.map_nil, List.mem_cons,
      List.mem_singleton, List.not_mem_nil, or_false] at hname ⊢
    rcases hname with rfl | rfl | rfl <;> decide
  · rw [heq, List.length_cons, List.length_map, hperm.length_eq]

/-- C7 at the name `unknown-name`, the entries visited in the order of the map
literal and with a file system that would refuse the directory: the three
names are listed and nothing else happens. -/
theorem createPipeline_unknown_template_witness :
    createPipeline "unknown-name" 1 (some "permission denied") none none =
      [ .print "Template 'unknown-name' not found. Available templates:\n",
        .print "  - node\n", .print "  - go\n", .print "  - python\n" ] :=
  (createPipeline_unknown_template "unknown-name" 1 (some "permission denied") none none
    (by decide)).1.trans (by decide)

/-- The processes a push launches: the three of `pushInvocations` when none
fails, else those up to and including the first that fails. -/
theorem execs_pushPipeline (config : Config) (line : String) (result : Results) :
    execs (pushPipeline config line result) =
      match firstFailure result 3 with
      | none => pushInvocations config line
      | some k => (pushInvocations config line).take (k + 1) := by
  have hr : List.range 3 = [0, 1, 2] := rfl
  rcases h0 : result 0 with _ | e0 <;> rcases h1 : result 1 with _ | e1 <;>
    rcases h2 : result 2 with _ | e2 <;>
    simp [pushPipeline, runGitCommands, gitCommands, h0, h1, h2, execs, firstFailure,
      pushInvocations, hr, List.find?]

/-- Whether a push ends in `log.Fatalf`: exactly when one of its three
processes fails. -/
theorem fatal_pushPipeline (config : Config) (line : String) (result : Results) :
    (pushPipeline config line result).any Event.isFatal = (firstFailure result 3).isSome := by
  have hr : List.range 3 = [0, 1, 2] := rfl
  rcases h0 : result 0 with _ | e0 <;> rcases h1 : result 1 with _ | e1 <;>
    rcases h2 : result 2 with _ | e2 <;>
    simp [pushPipeline, runGitCommands, gitCommands, h0, h1, h2, firstFailure,
      hr, List.find?, Event.isFatal]

/-- Every process a push launches is one of `pushInvocations`. -/
theorem execs_pushPipeline_subset (config : Config) (line : String) (result : Results) :
    ∀ i ∈ execs (pushPipeline config line result), i ∈ pushInvocations config line := by
  intro i hi
  rw [execs_pushPipeline] at hi
  cases h : firstFailure result 3 with
  | none => rw [h] at hi; exact hi
  | some k => rw [h] at hi; exact List.mem_of_mem_take hi

/-- The processes of a push, for every commit-message line and configuration:
in this order git add .github/workflows/, git commit -m with the message,
git push origin with the configured branch, where the message is
`Add CI/CD pipeline` for the empty line and the line itself otherwise; all
three are launched when none fails, and when one fails only those up to and
including the first failing one are: if the k-th launch fails, at most k + 1
processes are launched (none after the k-th), and the run ends in
`log.Fatalf` exactly when one of the three fails. -/
theorem pushPipeline_sequence (config : Config) (line : String) (result : Results) :
    execs (pushPipeline config line result) =
      (match firstFailure result 3 with
       | none => pushInvocations config line
       | some k => (pushInvocations config line).take (k + 1)) ∧
    pushInvocations config line =
      [ ⟨"git", ["add", ".github/workflows/"], ""⟩,
        ⟨"git", ["commit", "-m", if line = "" then "Add CI/CD pipeline" else line], ""⟩,
        ⟨"git", ["push", "origin", config.GitBranch], ""⟩ ] ∧
    execs (pushPipeline config line result) <+: pushInvocations config line ∧
    (∀ k, k < 3 → (result k).isSome = true →
      (execs (pushPipeline config line result)).length ≤ k + 1) ∧
    ((∀ k, k < 3 → result k = none) →
      execs (pushPipeline config line result) = pushInvocations config line) ∧
    (pushPipeline config line result).any Event.isFatal = (firstFailure result 3).isSome := by
  have hex := execs_pushPipeline config line result
  have hr : List.range 3 = [0, 1, 2] := rfl
  refine ⟨hex, rfl, ?_, ?_, ?_, fatal_pushPipeline config line result⟩
  · rw [hex]
    cases firstFailure result 3 with
    | none => exact List.prefix_refl _
    | some k => exact List.take_prefix _ _
  · intro k hk hfail
    rw [hex]
    rcases h0 : result 0 with _ | e0 <;> rcases h1 : result 1 with _ | e1 <;>
      rcases h2 : result 2 with _ | e2 <;>
      interval_cases k <;>
      simp_all [firstFailure, List.find?, pushInvocations]
  · intro hall
    rw [hex]
    simp [firstFailure, hr, List.find?, hall 0 (by omega), hall 1 (by omega), hall 2 (by omega)]

/-- C8, the code at the failing input: for a commit-message line of three
blanks the message handed to git commit is the three blanks, not the default
`Add CI/CD pipeline`, although the line is blank: it trims to the empty text,
and the startup prompts of `main` trim such a line and take their defaults.
The three processes are launched in order all the same. -/
theorem pushPipeline_blank_line_message :
    commitMessage "   " = "   " ∧
    commitMessage "   " ≠ "Add CI/CD pipeline" ∧
    commitMessage "" = "Add CI/CD pipeline" ∧
    trimSpace "   " = "" ∧
    initialConfig "   " "   " = ⟨"terraform", "./workspace", "", "main"⟩ ∧
    execs (pushPipeline (initialConfig "   " "   ") "   " fun _ => none) =
      [ ⟨"git", ["add", ".github/workflows/"], ""⟩,
        ⟨"git", ["commit", "-m", "   "], ""⟩,
        ⟨"git", ["push", "origin", "main"], ""⟩ ] := by
  decide

/-! ## Configuration commands -/

/-- C3: for every configuration and value, `setConfig` with the key
workspace-dir yields a configuration whose workspace directory is the value,
which `showConfig` then prints, and whose terraform path, git remote and git
branch are those of before; likewise each of the keys terraform-path,
git-remote and git-branch sets its own field to the value and keeps the
other three. -/
theorem setConfig_changes_own_field (c : Config) (v : String) :
    ((setConfig c "workspace-dir" v).1.WorkspaceDir = v ∧
      (setConfig c "workspace-dir" v).1.TerraformPath = c.TerraformPath ∧
      (setConfig c "workspace-dir" v).1.GitRemote = c.GitRemote ∧
      (setConfig c "workspace-dir" v).1.GitBranch = c.GitBranch) ∧
    showConfig (setConfig c "workspace-dir" v).1 =
      [ .print "Current configuration:\n",
        .print ("  Terraform Path: " ++ c.TerraformPath ++ "\n"),
        .print ("  Workspace Dir:  " ++ v ++ "\n"),
        .print ("  Git Remote:     " ++ c.GitRemote ++ "\n"),
        .print ("  Git Branch:     " ++ c.GitBranch ++ "\n") ] ∧
    ((setConfig c "terraform-path" v).1.TerraformPath = v ∧
      (setConfig c "terraform-path" v).1.WorkspaceDir = c.WorkspaceDir ∧
      (setConfig c "terraform-path" v).1.GitRemote = c.GitRemote ∧
      (setConfig c "terraform-path" v).1.GitBranch = c.GitBranch) ∧
    ((setConfig c "git-remote" v).1.GitRemote = v ∧
      (setConfig c "git-remote" v).1.TerraformPath = c.TerraformPath ∧
      (setConfig c "git-remote" v).1.WorkspaceDir = c.WorkspaceDir ∧
      (setConfig c "git-remote" v).1.GitBranch = c.GitBranch) ∧
    ((setConfig c "git-branch" v).1.GitBranch = v ∧
      (setConfig c "git-branch" v).1.TerraformPath = c.TerraformPath ∧
      (setConfig c "git-branch" v).1.WorkspaceDir = c.WorkspaceDir ∧
      (setConfig c "git-branch" v).1.GitRemote = c.GitRemote) := by
  refine ⟨?_, ?_, ?_, ?_, ?_⟩ <;> simp [setConfig, showConfig]

/-- The report of an unknown key is not the report of a key that was set. -/
theorem unknown_ne_set (key k value : String) :
    Event.print ("Unknown configuration key: " ++ key ++ "\n") ≠
      Event.print ("Set " ++ k ++ " = " ++ value ++ "\n") := by
  intro h
  simp only [Event.print.injEq] at h
  have := congrArg (fun s => s.data.head?) h
  simp [String.data_append] at this

/-- C4: for every key that is none of terraform-path, workspace-dir,
git-remote and git-branch, and for every value and configuration, `setConfig`
leaves the configuration as it is, prints the unknown-key line that names the
key and nothing else, hence does not call `log.Fatalf`; and for any key, the
call reports the key as set if and only if the key is one of these four. -/
theorem setConfig_unknown_key (c : Config) (key value : String) (h : key ∉ configKeys) :
    setConfig c key value = (c, [.print ("Unknown configuration key: " ++ key ++ "\n")]) ∧
    (setConfig c key value).1 = c ∧
    (∀ e ∈ (setConfig c key value).2, e.isFatal = false) ∧
    (∀ k, (setConfig c k value).2 = [.print ("Set " ++ k ++ " = " ++ value ++ "\n")] ↔
      k ∈ configKeys) := by
  have hunknown : ∀ k, k ∉ configKeys →
      setConfig c k value = (c, [.print ("Unknown configuration key: " ++ k ++ "\n")]) := by
    intro k hk
    simp only [configKeys, List.mem_cons, List.mem_singleton, List.not_mem_nil, or_false,
      not_or] at hk
    obtain ⟨h1, h2, h3, h4⟩ := hk
    simp [setConfig, h1, h2, h3, h4]
  have hk := hunknown key h
  refine ⟨hk, by rw [hk], ?_, ?_⟩
  · intro e he
    rw [hk] at he
    simp only [List.mem_singleton] at he
    subst he
    rfl
  · intro k
    constructor
    · intro hset
      by_contra hnot
      rw [hunknown k hnot] at hset
      simp only [List.cons.injEq, and_true] at hset
      exact unknown_ne_set k k value hset
    · intro hmem
      simp only [configKeys, List.mem_cons, List.mem_singleton, List.not_mem_nil,
        or_false] at hmem
      rcases hmem with rfl | rfl | rfl | rfl <;> simp [setConfig]

/-- C4 at the key `bogus-key`: the configuration is kept and the key is
reported as unknown. -/
theorem setConfig_unknown_key_witness :
    setConfig ⟨"terraform", "./workspace", "", "main"⟩ "bogus-key" "v" =
      (⟨"terraform", "./workspace", "", "main"⟩,
        [.print "Unknown configuration key: bogus-key\n"]) :=
  (setConfig_unknown_key ⟨"terraform", "./workspace", "", "main"⟩ "bogus-key" "v"
    (by decide)).1

/-- C10: for any two configurations that differ at most in the git remote,
every handler that launches a process performs the same effects, in
particular launches the same processes: the push, the four terraform
commands and the bash script; setting the key git-remote changes none of
them either; and a push that is launched always targets the remote
`origin`. -/
theorem git_remote_is_unused (c1 c2 : Config)
    (hpath : c1.TerraformPath = c2.TerraformPath)
    (_hdir : c1.WorkspaceDir = c2.WorkspaceDir)
    (hbranch : c1.GitBranch = c2.GitBranch)
    (line pwd scriptPath : String) (args : List String) (scriptExists : Bool)
    (result : Results) :
    pushPipeline c1 line result = pushPipeline c2 line result ∧
    runTerraformInit c1 args pwd result = runTerraformInit c2 args pwd result ∧
    runTerraformPlan c1 args pwd result = runTerraformPlan c2 args pwd result ∧
    runTerraformApply c1 args pwd line result = runTerraformApply c2 args pwd line result ∧
    runTerraformDestroy c1 args pwd line result = runTerraformDestroy c2 args pwd line result ∧
    runBashScript c1 scriptPath scriptExists result =
      runBashScript c2 scriptPath scriptExists result ∧
    (∀ remote, pushPipeline (setConfig c1 "git-remote" remote).1 line result =
      pushPipeline c1 line result) ∧
    (∀ i ∈ execs (pushPipeline c1 line result), i.args.head? = some "push" →
      i = ⟨"git", ["push", "origin", c1.GitBranch], ""⟩) := by
  refine ⟨?_, ?_, ?_, ?_, ?_, rfl, ?_, ?_⟩
  · simp only [pushPipeline, gitCommands, hbranch]
  · simp only [runTerraformInit, runTerraformCommand, hpath]
  · simp only [runTerraformPlan, runTerraformCommand, hpath]
  · simp only [runTerraformApply, runTerraformCommand, hpath]
  · simp only [runTerraformDestroy, runTerraformCommand, hpath]
  · intro remote
    simp [setConfig, pushPipeline, gitCommands]
  · intro i hi hpush
    have hmem := execs_pushPipeline_subset c1 line result i hi
    simp only [pushInvocations, List.mem_cons, List.mem_singleton, List.not_mem_nil,
      or_false] at hmem
    rcases hmem with rfl | rfl | rfl
    · simp at hpush
    · simp at hpush
    · rfl

/-- C10 at two configurations with the remotes `origin` and `upstream`: the
push launches the same three processes, the last one to `origin`. -/
theorem git_remote_is_unused_witness :
    execs (pushPipeline ⟨"terraform", "./workspace", "upstream", "main"⟩ "" fun _ => none) =
      [ ⟨"git", ["add", ".github/workflows/"], ""⟩,
        ⟨"git", ["commit", "-m", "Add CI/CD pipeline"], ""⟩,
        ⟨"git", ["push", "origin", "main"], ""⟩ ] :=
  (congrArg execs (git_remote_is_unused ⟨"terraform", "./workspace", "origin", "main"⟩
    ⟨"terraform", "./workspace", "upstream", "main"⟩ rfl rfl rfl "" "/tmp" "deploy.sh" []
    true (fun _ => none)).1).symm.trans (by decide)

end DevOpsCLI
